import Mathlib

/-!
Formal model of the smart-attendance decision engine.

The definitions below are a shallow embedding of the repository's Python
sources: face_utils.py (nearest-neighbour matching and threshold banding),
app.py (attendance processing, cooldown, pending-confirmation workflow,
enrollment) and models.py (record types and the attendance uniqueness
constraint).  Machine floats appear in the source only as exact decimal
thresholds, distances and the sentinel infinity, so distances are modelled
as WithTop Rat (top = the initial best_distance = float inf) and
confidences as WithBot Rat (bottom = 1 - inf = -inf).  The external
face_recognition distance function is out of scope per the source
boundaries and is passed as a parameter.  Database tables are lists of
records; the storage layer's unique constraint is an insert that fails on a
key collision; an unhandled exception is an Except.error.
-/

namespace SmartAttendance

/-- Match bands returned by recognize_face (face_utils.py lines 104-116).
The code's match_type strings are high, low, unknown; the specification
calls these bands confident, tentative, unknown respectively. -/
inductive Band
  | high
  | low
  | unknown
deriving DecidableEq

/-- Distances: a rational, or top for the initial best_distance = float inf
(face_utils.py line 92). -/
abbrev Dist := WithTop ℚ

/-- Confidences 1 - distance: a rational, or bottom for 1 - inf = -inf. -/
abbrev Conf := WithBot ℚ

/-- Python float arithmetic confidence = 1 - best_distance, including
1 - inf = -inf (face_utils.py line 105). -/
def oneMinus (d : Dist) : Conf :=
  WithTop.recTopCoe ⊥ (fun q => ((1 - q : ℚ) : WithBot ℚ)) d

/-- Threshold banding of the best distance (face_utils.py lines 104-116):
confidence = 1 - d for every band; d ≤ low_threshold gives band high,
otherwise d ≤ high_threshold gives band low, otherwise the band is unknown
and best_match_id is forced to none. -/
def classify (d : Dist) (low_threshold high_threshold : ℚ) (best_match_id : Option Nat) :
    Option Nat × Conf × Band :=
  let confidence := oneMinus d
  if d ≤ (low_threshold : Dist) then (best_match_id, confidence, Band.high)
  else if d ≤ (high_threshold : Dist) then (best_match_id, confidence, Band.low)
  else (none, confidence, Band.unknown)

/-- Nearest-neighbour scan of face_utils.py lines 91-102: starting from
best = (None, inf), every encoding of every identity is visited in
enumeration order and the best pair is replaced exactly when the new
distance is strictly smaller. -/
def find_nearest {α : Type} (dist : α → α → ℚ) (q : α) (known : List (Nat × List α)) :
    Option Nat × Dist :=
  known.foldl
    (fun best p =>
      p.2.foldl
        (fun b e => if ((dist e q : ℚ) : Dist) < b.2 then (some p.1, ((dist e q : ℚ) : Dist)) else b)
        best)
    (none, ⊤)

/-- recognize_face (face_utils.py lines 74-116): an empty known dictionary
returns (None, 0, unknown) before any threshold is read; otherwise the
nearest-neighbour scan runs and the best distance is banded. -/
def recognize_face {α : Type} (dist : α → α → ℚ) (q : α) (known : List (Nat × List α))
    (high_threshold low_threshold : ℚ) : Option Nat × Conf × Band :=
  if known.isEmpty then (none, ((0 : ℚ) : Conf), Band.unknown)
  else
    let r := find_nearest dist q known
    classify r.2 low_threshold high_threshold r.1

/-- Distance of one (student_id, encoding) pair to the query. -/
def dd {α : Type} (dist : α → α → ℚ) (q : α) (pe : Nat × α) : Dist :=
  ((dist pe.2 q : ℚ) : Dist)

/-- The nearest-neighbour scan of find_nearest as a single fold over the
flattened (student_id, encoding) pairs. -/
def pairLoop {α : Type} (dist : α → α → ℚ) (q : α) (i : Option Nat × Dist)
    (pairs : List (Nat × α)) : Option Nat × Dist :=
  pairs.foldl (fun b pe => if dd dist q pe < b.2 then (some pe.1, dd dist q pe) else b) i

/-- Flattening of the known dictionary into (student_id, encoding) pairs in
enumeration order. -/
def flatPairs {α : Type} (known : List (Nat × List α)) : List (Nat × α) :=
  known.flatMap (fun p => p.2.map (fun e => (p.1, e)))

/-- Minimal distance over a pair list, top when the list is empty. -/
def mind {α : Type} (dist : α → α → ℚ) (q : α) (pairs : List (Nat × α)) : Dist :=
  pairs.foldr (fun pe b => min (dd dist q pe) b) ⊤

/-- Provenance of a stored face encoding (models.py line 33). -/
inductive Source
  | registration
  | adaptive
deriving DecidableEq

/-- Student row (models.py lines 7-22). -/
structure Stu where
  id : Nat
  name : String
  roll_number : String
  class_name : String
  department : String
deriving DecidableEq

/-- FaceEncoding row (models.py lines 25-44); created_at is an abstract
timestamp in seconds. -/
structure FaceEnc where
  id : Nat
  student_id : Nat
  encoding : List ℚ
  created_at : Nat
  source : Source
deriving DecidableEq

/-- Attendance row (models.py lines 62-77); the calendar date is an
abstract day number. -/
structure AttRecord where
  student_id : Nat
  date : Nat
  time_marked : Nat
  subject : String
  confidence : Conf
  confirmed : Bool
deriving DecidableEq

/-- PendingConfirmation row (models.py lines 83-104). -/
structure PendRecord where
  id : Nat
  student_id : Nat
  face_encoding : List ℚ
  face_image : String
  confidence : Conf
  subject : String
deriving DecidableEq

/-- Process state: the database tables, the process-wide recently_marked
cooldown map (app.py line 38) and the settings rows read by the decision
paths.  The next_ fields model the primary-key sequences of the store. -/
structure AppState where
  students : List Stu
  face_encs : List FaceEnc
  attendance : List AttRecord
  pendings : List PendRecord
  recently_marked : List (Nat × Nat)
  adaptive_learning : Bool
  max_encodings : Nat
  next_pending_id : Nat
  next_enc_id : Nat
deriving DecidableEq

/-- app.py line 39. -/
def MARK_COOLDOWN : Nat := 300

/-- Student.query.get (app.py line 275). -/
def lookup_student (s : AppState) (sid : Nat) : Option Stu :=
  s.students.find? (fun st => st.id == sid)

/-- recently_marked dictionary lookup (app.py line 291). -/
def lookup_recent (l : List (Nat × Nat)) (sid : Nat) : Option Nat :=
  (l.find? (fun p => p.1 == sid)).map Prod.snd

/-- recently_marked dictionary update (app.py line 323); the new binding
shadows any older one under lookup_recent. -/
def set_recent (l : List (Nat × Nat)) (sid now : Nat) : List (Nat × Nat) :=
  (sid, now) :: l

/-- Attendance.query.filter_by on the key (student_id, date, subject)
(app.py lines 299-303 and 366-370). -/
def find_attendance (l : List AttRecord) (sid date : Nat) (subject : String) :
    Option AttRecord :=
  l.find? (fun r => r.student_id == sid && r.date == date && r.subject == subject)

/-- Storage-layer insert of an Attendance row under the unique constraint
on (student_id, date, subject) (models.py lines 74-77): a key collision
raises IntegrityError, modelled as Except.error. -/
def insert_attendance (l : List AttRecord) (r : AttRecord) : Except Unit (List AttRecord) :=
  if (find_attendance l r.student_id r.date r.subject).isSome then Except.error ()
  else Except.ok (l ++ [r])

/-- add_face_encoding (face_utils.py lines 142-158): a new FaceEncoding row
with a fresh primary key and created_at = now. -/
def add_face_encoding (s : AppState) (sid : Nat) (enc : List ℚ) (src : Source) (now : Nat) :
    AppState :=
  { s with
    face_encs := s.face_encs ++ [⟨s.next_enc_id, sid, enc, now, src⟩]
    next_enc_id := s.next_enc_id + 1 }

/-- Insertion of a row into a list kept sorted by created_at descending. -/
def insert_desc (e : FaceEnc) : List FaceEnc → List FaceEnc
  | [] => [e]
  | x :: xs => if x.created_at ≤ e.created_at then e :: x :: xs else x :: insert_desc e xs

/-- order_by(FaceEncoding.created_at.desc()) (face_utils.py line 225). -/
def sort_desc (l : List FaceEnc) : List FaceEnc :=
  l.foldr insert_desc []

/-- The rows deleted by cleanup_old_encodings (face_utils.py lines
227-234), given the query result sorted newest first: when the row count
exceeds the bound, the last excess entries of the adaptive-source sublist
(its oldest rows; the Python slice adaptive_encodings[-excess:] clamps to
the whole list when excess exceeds its length, as List.drop does). -/
def cleanup_deleted (encodings : List FaceEnc) (max_encodings : Nat) : List FaceEnc :=
  if max_encodings < encodings.length then
    let adaptives := encodings.filter (fun e => e.source == Source.adaptive)
    let excess := encodings.length - max_encodings
    adaptives.drop (adaptives.length - excess)
  else []

/-- cleanup_old_encodings (face_utils.py lines 220-236) acting on the
store: the student's rows are read newest first and the computed rows are
deleted (rows are keyed by their primary key id). -/
def cleanup_old_encodings (s : AppState) (sid : Nat) : AppState :=
  let encodings := sort_desc (s.face_encs.filter (fun e => e.student_id == sid))
  let deleted := cleanup_deleted encodings s.max_encodings
  let dids := deleted.map FaceEnc.id
  { s with face_encs := s.face_encs.filter (fun e => !(dids.contains e.id)) }

/-- The adaptive-learning step shared by app.py lines 326-329 and 385-389:
append the observed encoding with adaptive provenance, then enforce the
per-student bound. -/
def adaptive_learn (s : AppState) (sid : Nat) (enc : List ℚ) (now : Nat) : AppState :=
  cleanup_old_encodings (add_face_encoding s sid enc Source.adaptive now) sid

/-- Discriminated outcome of process_attendance (the result dictionaries
of app.py lines 239-350). -/
inductive PResult
  | noClass
  | noFace
  | unknownFace (confidence : Conf)
  | wrongClass (sid : Nat)
  | alreadyMarkedCooldown (sid : Nat) (remaining : Nat)
  | alreadyMarkedToday (sid : Nat)
  | marked (sid : Nat) (confidence : Conf)
  | pending (pid : Nat) (confidence : Conf)
deriving DecidableEq

/-- The high-confidence commit path of process_attendance (app.py lines
310-331): insert the Attendance row, update recently_marked, then run
adaptive learning when enabled.  The insert is not wrapped in any
exception handler in app.py, so a uniqueness-constraint rejection
propagates as Except.error. -/
def mark_high_confidence (s : AppState) (sid : Nat) (subject : String) (confidence : Conf)
    (enc : List ℚ) (now today : Nat) : Except Unit (AppState × PResult) :=
  match insert_attendance s.attendance ⟨sid, today, now, subject, confidence, true⟩ with
  | Except.error e => Except.error e
  | Except.ok att =>
    let s1 : AppState :=
      { s with attendance := att, recently_marked := set_recent s.recently_marked sid now }
    let s2 := if s1.adaptive_learning then adaptive_learn s1 sid enc now else s1
    Except.ok (s2, PResult.marked sid confidence)

/-- The low-confidence path of process_attendance (app.py lines 334-348):
create a PendingConfirmation row storing the candidate student, the
captured encoding, the captured image and the confidence. -/
def create_pending (s : AppState) (sid : Nat) (subject : String) (confidence : Conf)
    (enc : List ℚ) (image : String) : AppState × PResult :=
  ({ s with
      pendings := s.pendings ++ [⟨s.next_pending_id, sid, enc, image, confidence, subject⟩]
      next_pending_id := s.next_pending_id + 1 },
   PResult.pending s.next_pending_id confidence)

/-- process_attendance after the cooldown gate (app.py lines 298-350):
the duplicate check against the ledger, then the high or low confidence
branch. -/
def after_cooldown (s : AppState) (sid : Nat) (cls : String × String) (band : Band)
    (confidence : Conf) (enc : List ℚ) (image : String) (now today : Nat) :
    Except Unit (AppState × PResult) :=
  if (find_attendance s.attendance sid today cls.2).isSome then
    Except.ok (s, PResult.alreadyMarkedToday sid)
  else if band == Band.high then mark_high_confidence s sid cls.2 confidence enc now today
  else Except.ok (create_pending s sid cls.2 confidence enc image)

/-- process_attendance (app.py lines 239-350).  current_class is the
scheduled (class_name, subject) if any; encoding? is the extracted face
embedding if a face was found; dist, known and the thresholds feed
recognize_face; now and today are the clock readings.  The cooldown test
uses (now - last).seconds of the Python timedelta, which for nonnegative
deltas is the elapsed seconds modulo 86400.  An identifier that reaches
Student.query.get without a matching row makes the handler raise, modelled
as Except.error. -/
def process_attendance (s : AppState) (current_class : Option (String × String))
    (encoding? : Option (List ℚ)) (image : String)
    (dist : List ℚ → List ℚ → ℚ) (known : List (Nat × List (List ℚ)))
    (high_threshold low_threshold : ℚ) (now today : Nat) :
    Except Unit (AppState × PResult) :=
  match current_class with
  | none => Except.ok (s, PResult.noClass)
  | some cls =>
    match encoding? with
    | none => Except.ok (s, PResult.noFace)
    | some encoding =>
      let r := recognize_face dist encoding known high_threshold low_threshold
      if r.2.2 == Band.unknown then Except.ok (s, PResult.unknownFace r.2.1)
      else
        match r.1 with
        | none => Except.error ()
        | some sid =>
          match lookup_student s sid with
          | none => Except.error ()
          | some student =>
            if student.class_name ≠ cls.1 then Except.ok (s, PResult.wrongClass sid)
            else
              match lookup_recent s.recently_marked sid with
              | some last =>
                let time_diff := (now - last) % 86400
                if time_diff < MARK_COOLDOWN then
                  Except.ok (s, PResult.alreadyMarkedCooldown sid (MARK_COOLDOWN - time_diff))
                else after_cooldown s sid cls r.2.2 r.2.1 encoding image now today
              | none => after_cooldown s sid cls r.2.2 r.2.1 encoding image now today

/-- The Python expression correct_student_id or pending.student_id
(app.py line 363): a missing or zero (falsy) override falls back to the
pending row's candidate. -/
def py_or_sid (correct : Option Nat) (default_sid : Nat) : Nat :=
  match correct with
  | some n => if n = 0 then default_sid else n
  | none => default_sid

/-- confirm_attendance (app.py lines 353-395).  A missing pending id is a
404, modelled as Except.error.  On confirm the (possibly corrected)
student gets an Attendance row carrying the captured confidence unless one
already exists for (student, today, subject), and the captured encoding is
fed to adaptive learning when the flag is enabled; on reject nothing else
changes.  In every resolved case the pending row is deleted. -/
def confirm_attendance (s : AppState) (pid : Nat) (confirmed : Bool)
    (correct_student_id : Option Nat) (now today : Nat) : Except Unit (AppState × Bool) :=
  match s.pendings.find? (fun p => p.id == pid) with
  | none => Except.error ()
  | some pending =>
    let s1 : AppState :=
      if confirmed then
        let sid := py_or_sid correct_student_id pending.student_id
        if (find_attendance s.attendance sid today pending.subject).isSome then s
        else
          let s2 : AppState :=
            { s with attendance :=
                s.attendance ++ [⟨sid, today, now, pending.subject, pending.confidence, true⟩] }
          if s2.adaptive_learning then adaptive_learn s2 sid pending.face_encoding now else s2
      else s
    Except.ok ({ s1 with pendings := s1.pendings.filter (fun p => p.id ≠ pid) }, true)

/-- register_student (app.py lines 141-180).  extract models
encode_face_from_base64; new_sid is the fresh primary key the store
assigns to the created row.  The student row is created first; each image
yielding an encoding adds a registration-provenance FaceEncoding; if no
image yields one, the student is deleted again, which cascades to the
rows referencing it (models.py lines 18-19). -/
def register_student (s : AppState) (extract : String → Option (List ℚ))
    (name roll_number class_name department : String) (images : List String)
    (new_sid : Nat) (now : Nat) : AppState × Bool :=
  if (s.students.find? (fun st => st.roll_number == roll_number)).isSome then (s, false)
  else
    let s1 : AppState :=
      { s with students := s.students ++ [⟨new_sid, name, roll_number, class_name, department⟩] }
    let r := images.foldl
      (fun (acc : AppState × Nat) img =>
        match extract img with
        | some enc => (add_face_encoding acc.1 new_sid enc Source.registration now, acc.2 + 1)
        | none => acc)
      (s1, 0)
    if r.2 = 0 then
      ({ r.1 with
          students := r.1.students.filter (fun st => st.id ≠ new_sid)
          face_encs := r.1.face_encs.filter (fun e => e.student_id ≠ new_sid)
          attendance := r.1.attendance.filter (fun a => a.student_id ≠ new_sid) }, false)
    else (r.1, true)

/-! Helper lemmas shared by the claim theorems. -/

lemma oneMinus_coe (q : ℚ) : oneMinus ((q : ℚ) : Dist) = ((1 - q : ℚ) : Conf) := rfl

lemma oneMinus_top : oneMinus (⊤ : Dist) = (⊥ : Conf) := rfl

/-- classify at a finite distance, with the threshold comparisons pulled
down to the rationals. -/
lemma classify_coe_spec (d low_threshold high_threshold : ℚ) (sid : Option Nat) :
    classify ((d : ℚ) : Dist) low_threshold high_threshold sid =
      if d ≤ low_threshold then (sid, ((1 - d : ℚ) : Conf), Band.high)
      else if d ≤ high_threshold then (sid, ((1 - d : ℚ) : Conf), Band.low)
      else (none, ((1 - d : ℚ) : Conf), Band.unknown) := by
  simp only [classify, oneMinus_coe, WithTop.coe_le_coe]

/-- classify at the sentinel infinite distance. -/
lemma classify_top (low_threshold high_threshold : ℚ) (sid : Option Nat) :
    classify (⊤ : Dist) low_threshold high_threshold sid = (none, (⊥ : Conf), Band.unknown) := by
  have h1 : ¬ ((⊤ : Dist) ≤ (low_threshold : Dist)) := by
    simp [top_le_iff]
  have h2 : ¬ ((⊤ : Dist) ≤ (high_threshold : Dist)) := by
    simp [top_le_iff]
  simp [classify, h1, h2, oneMinus_top]

/-- The nearest-neighbour scan over a single identity with a single
encoding. -/
lemma find_nearest_singleton (dist : List ℚ → List ℚ → ℚ) (q v : List ℚ) (sid : Nat) :
    find_nearest dist q [(sid, [v])] = (some sid, ((dist v q : ℚ) : Dist)) := by
  simp [find_nearest, WithTop.coe_lt_top]

/-- recognize_face over a single identity with a single encoding. -/
lemma recognize_face_singleton (dist : List ℚ → List ℚ → ℚ) (q v : List ℚ) (sid : Nat)
    (high_threshold low_threshold : ℚ) :
    recognize_face dist q [(sid, [v])] high_threshold low_threshold
      = classify ((dist v q : ℚ) : Dist) low_threshold high_threshold (some sid) := by
  simp [recognize_face, find_nearest_singleton]

/-- C1: for thresholds with confident bound ≤ tentative bound, the
classifier band is confident (code name high) iff d ≤ confident threshold,
tentative (code name low) iff confident < d ≤ tentative threshold, and
unknown iff d exceeds the tentative threshold, with boundaries inclusive
on the lower band; in the unknown band the identity is forced to none; in
every band the confidence is the unclamped 1 - d, negative when d > 1. -/
theorem claim_C1 (d low_threshold high_threshold : ℚ) (sid : Option Nat)
    (hth : low_threshold ≤ high_threshold) :
    ((classify ((d : ℚ) : Dist) low_threshold high_threshold sid).2.2 = Band.high
        ↔ d ≤ low_threshold)
    ∧ ((classify ((d : ℚ) : Dist) low_threshold high_threshold sid).2.2 = Band.low
        ↔ low_threshold < d ∧ d ≤ high_threshold)
    ∧ ((classify ((d : ℚ) : Dist) low_threshold high_threshold sid).2.2 = Band.unknown
        ↔ high_threshold < d)
    ∧ ((classify ((d : ℚ) : Dist) low_threshold high_threshold sid).2.2 = Band.unknown
        → (classify ((d : ℚ) : Dist) low_threshold high_threshold sid).1 = none)
    ∧ ((classify ((d : ℚ) : Dist) low_threshold high_threshold sid).2.1 = ((1 - d : ℚ) : Conf))
    ∧ (1 < d → (classify ((d : ℚ) : Dist) low_threshold high_threshold sid).2.1 < ((0 : ℚ) : Conf)) := by
  rw [classify_coe_spec]
  split_ifs with h1 h2 <;> refine ⟨?_, ?_, ?_, ?_, ?_, ?_⟩ <;> simp_all <;> linarith

/-- Witness for C1 at distance 0 with thresholds 1 ≤ 2. -/
theorem claim_C1_witness :
    ((1 : ℚ) ≤ (2 : ℚ))
    ∧ ((classify (((0 : ℚ) : ℚ) : Dist) 1 2 (some 1)).2.2 = Band.high ↔ (0 : ℚ) ≤ 1) :=
  ⟨by norm_num, (claim_C1 0 1 2 (some 1) (by norm_num)).1⟩

/-- C7: with an empty known set the nearest-neighbour scan returns
(none, infinity), and recognize_face returns identity none and the
unknown band whatever the thresholds are. -/
theorem claim_C7 (dist : List ℚ → List ℚ → ℚ) (q : List ℚ) (high_threshold low_threshold : ℚ) :
    find_nearest dist q [] = (none, (⊤ : Dist))
    ∧ recognize_face dist q [] high_threshold low_threshold
        = (none, ((0 : ℚ) : Conf), Band.unknown) :=
  ⟨rfl, rfl⟩

/-- A known set all of whose encoding lists are empty leaves the
nearest-neighbour scan at its initial (None, inf). -/
lemma find_nearest_all_empty {α : Type} (dist : α → α → ℚ) (q : α)
    (known : List (Nat × List α)) (h : ∀ p ∈ known, p.2 = []) :
    find_nearest dist q known = (none, (⊤ : Dist)) := by
  induction known with
  | nil => rfl
  | cons p ks ih =>
    have hp : p.2 = [] := h p (by simp)
    have hks : ∀ x ∈ ks, x.2 = [] := fun x hx => h x (by simp [hx])
    simp only [find_nearest, List.foldl_cons] at ih ⊢
    rw [hp]
    exact ih hks

/-- C10: a known set that is non-empty but all of whose identities map to
empty encoding lists misses the empty-mapping early return: the scan keeps
distance infinity, so recognize_face returns identity none, the unknown
band, and confidence 1 - infinity = -infinity, which differs from the
confidence 0 of the empty-mapping case. -/
theorem claim_C10 (dist : List ℚ → List ℚ → ℚ) (q : List ℚ)
    (known : List (Nat × List (List ℚ))) (high_threshold low_threshold : ℚ)
    (hne : known ≠ []) (hempty : ∀ p ∈ known, p.2 = []) :
    recognize_face dist q known high_threshold low_threshold
        = (none, (⊥ : Conf), Band.unknown)
    ∧ (⊥ : Conf) = oneMinus (⊤ : Dist)
    ∧ (⊥ : Conf) ≠ ((0 : ℚ) : Conf) := by
  have hne' : known.isEmpty = false := by
    cases known with
    | nil => exact absurd rfl hne
    | cons a l => rfl
  refine ⟨?_, rfl, by simp⟩
  simp only [recognize_face, hne', Bool.false_eq_true, if_false]
  rw [find_nearest_all_empty dist q known hempty]
  exact classify_top low_threshold high_threshold none

/-- Witness for C10 on the known set [(1, [])]. -/
theorem claim_C10_witness :
    ([(1, ([] : List (List ℚ)))] ≠ [])
    ∧ recognize_face (fun _ _ => (0 : ℚ)) [] [(1, ([] : List (List ℚ)))] 1 0
        = (none, (⊥ : Conf), Band.unknown) :=
  ⟨by decide, (claim_C10 (fun _ _ => (0 : ℚ)) [] [(1, [])] 1 0 (by decide) (by decide)).1⟩

/-- C4, evaluation at the failing input: student 1 was last marked at
time 0 and a confident match arrives at time 86405, one day plus five
seconds later, far beyond the 300 second window; the claim says the match
is accepted, but the code computes the timedelta seconds component
86405 mod 86400 = 5 < 300 and suppresses the match, reporting a 295
second cooldown. -/
theorem claim_C4_day_wrap_evaluation :
    process_attendance
        ⟨[⟨1, "Bob", "r1", "A", "CS"⟩], [], [], [], [(1, 0)], false, 10, 1, 1⟩
        (some ("A", "Math")) (some [0]) "img" (fun _ _ => (0 : ℚ)) [(1, [[0]])]
        2 1 86405 0
      = Except.ok (⟨[⟨1, "Bob", "r1", "A", "CS"⟩], [], [], [], [(1, 0)], false, 10, 1, 1⟩,
          PResult.alreadyMarkedCooldown 1 295) := by
  rfl

/-- C2, counterexample to the claim as stated: the high-confidence commit
path hits the storage uniqueness constraint (an Attendance row for
(student 1, day 0, Math) is already present at commit time, as happens
when a concurrent writer commits between the check and the insert) and
the rejection propagates as an error instead of being caught and treated
as already-marked. -/
theorem claim_C2_counterexample :
    (find_attendance [⟨1, 0, 0, "Math", ((1 : ℚ) : Conf), true⟩] 1 0 "Math").isSome = true
    ∧ mark_high_confidence ⟨[], [], [⟨1, 0, 0, "Math", ((1 : ℚ) : Conf), true⟩], [], [], false, 10, 1, 1⟩
        1 "Math" ((1 : ℚ) : Conf) [0] 5 0 = Except.error () :=
  ⟨rfl, rfl⟩

lemma lookup_recent_set (l : List (Nat × Nat)) (sid now : Nat) :
    lookup_recent (set_recent l sid now) sid = some now := by
  simp [lookup_recent, set_recent]

lemma adaptive_learn_students (s : AppState) (sid : Nat) (enc : List ℚ) (now : Nat) :
    (adaptive_learn s sid enc now).students = s.students := rfl

lemma adaptive_learn_attendance (s : AppState) (sid : Nat) (enc : List ℚ) (now : Nat) :
    (adaptive_learn s sid enc now).attendance = s.attendance := rfl

lemma adaptive_learn_recently_marked (s : AppState) (sid : Nat) (enc : List ℚ) (now : Nat) :
    (adaptive_learn s sid enc now).recently_marked = s.recently_marked := rfl

lemma adaptive_learn_pendings (s : AppState) (sid : Nat) (enc : List ℚ) (now : Nat) :
    (adaptive_learn s sid enc now).pendings = s.pendings := rfl

lemma learn_if_students (t : AppState) (b : Bool) (sid : Nat) (enc : List ℚ) (now : Nat) :
    (if b then adaptive_learn t sid enc now else t).students = t.students := by
  cases b <;> rfl

lemma learn_if_attendance (t : AppState) (b : Bool) (sid : Nat) (enc : List ℚ) (now : Nat) :
    (if b then adaptive_learn t sid enc now else t).attendance = t.attendance := by
  cases b <;> rfl

lemma learn_if_recently_marked (t : AppState) (b : Bool) (sid : Nat) (enc : List ℚ) (now : Nat) :
    (if b then adaptive_learn t sid enc now else t).recently_marked = t.recently_marked := by
  cases b <;> rfl

lemma find_attendance_append_key (l : List AttRecord) (sid date : Nat) (subject : String)
    (t : Nat) (c : Conf) (b : Bool) :
    find_attendance (l ++ [⟨sid, date, t, subject, c, b⟩]) sid date subject
      = (find_attendance l sid date subject).or (some ⟨sid, date, t, subject, c, b⟩) := by
  simp [find_attendance, List.find?_append]

lemma filter_key_of_find_none (l : List AttRecord) (sid date : Nat) (subject : String)
    (h : find_attendance l sid date subject = none) :
    l.filter (fun r => r.student_id == sid && r.date == date && r.subject == subject) = [] := by
  rw [List.filter_eq_nil_iff]
  exact fun a ha => (List.find?_eq_none.mp h) a ha

/-- C2, amended: a pair of sequentially processed confident matches for
the same (identity, date, subject) commits exactly one AttendanceRecord
and the second attempt is reported as already-marked (by the cooldown or
the ledger pre-check); however a uniqueness-constraint rejection of the
insert itself is not caught: the commit path propagates it as an error
rather than treating it as already-marked. -/
theorem claim_C2 :
    (∀ (s : AppState) (cls : String × String) (enc : List ℚ) (image image' : String)
        (dist : List ℚ → List ℚ → ℚ) (known : List (Nat × List (List ℚ)))
        (high_threshold low_threshold : ℚ) (now now' today : Nat)
        (sid : Nat) (conf : Conf) (student : Stu),
      recognize_face dist enc known high_threshold low_threshold = (some sid, conf, Band.high) →
      lookup_student s sid = some student →
      student.class_name = cls.1 →
      lookup_recent s.recently_marked sid = none →
      find_attendance s.attendance sid today cls.2 = none →
      ∃ s1,
        process_attendance s (some cls) (some enc) image dist known high_threshold low_threshold
            now today
          = Except.ok (s1, PResult.marked sid conf)
        ∧ (s1.attendance.filter
            (fun r => r.student_id == sid && r.date == today && r.subject == cls.2)).length = 1
        ∧ ∃ res,
            process_attendance s1 (some cls) (some enc) image' dist known high_threshold
                low_threshold now' today
              = Except.ok (s1, res)
            ∧ (res = PResult.alreadyMarkedCooldown sid (MARK_COOLDOWN - (now' - now) % 86400)
               ∨ res = PResult.alreadyMarkedToday sid))
    ∧ (∀ (s : AppState) (sid : Nat) (subject : String) (conf : Conf) (enc : List ℚ)
        (now today : Nat),
      (find_attendance s.attendance sid today subject).isSome = true →
      mark_high_confidence s sid subject conf enc now today = Except.error ()) := by
  constructor
  · intro s cls enc image image' dist known high_threshold low_threshold now now' today sid conf
      student hrec hstu hclass hcool hfind
    have hinsert : insert_attendance s.attendance ⟨sid, today, now, cls.2, conf, true⟩
        = Except.ok (s.attendance ++ [(⟨sid, today, now, cls.2, conf, true⟩ : AttRecord)]) := by
      simp [insert_attendance, hfind]
    have run1 : process_attendance s (some cls) (some enc) image dist known high_threshold
        low_threshold now today
        = Except.ok
            ((if ({ s with
                  attendance := s.attendance ++ [(⟨sid, today, now, cls.2, conf, true⟩ : AttRecord)],
                  recently_marked := set_recent s.recently_marked sid now } : AppState).adaptive_learning
              then adaptive_learn { s with
                  attendance := s.attendance ++ [(⟨sid, today, now, cls.2, conf, true⟩ : AttRecord)],
                  recently_marked := set_recent s.recently_marked sid now } sid enc now
              else { s with
                  attendance := s.attendance ++ [(⟨sid, today, now, cls.2, conf, true⟩ : AttRecord)],
                  recently_marked := set_recent s.recently_marked sid now }),
             PResult.marked sid conf) := by
      simp [process_attendance, hrec, hstu, hclass, hcool, after_cooldown, hfind,
        mark_high_confidence, hinsert]
    refine ⟨_, run1, ?_, ?_⟩
    · rw [learn_if_attendance]
      show ((s.attendance ++ [(⟨sid, today, now, cls.2, conf, true⟩ : AttRecord)]).filter
          (fun r => r.student_id == sid && r.date == today && r.subject == cls.2)).length = 1
      rw [List.filter_append, filter_key_of_find_none s.attendance sid today cls.2 hfind]
      simp
    · have hstu1 : lookup_student
          (if ({ s with
              attendance := s.attendance ++ [(⟨sid, today, now, cls.2, conf, true⟩ : AttRecord)],
              recently_marked := set_recent s.recently_marked sid now } : AppState).adaptive_learning
            then adaptive_learn { s with
              attendance := s.attendance ++ [(⟨sid, today, now, cls.2, conf, true⟩ : AttRecord)],
              recently_marked := set_recent s.recently_marked sid now } sid enc now
            else { s with
              attendance := s.attendance ++ [(⟨sid, today, now, cls.2, conf, true⟩ : AttRecord)],
              recently_marked := set_recent s.recently_marked sid now }) sid = some student := by
        rw [lookup_student, learn_if_students]
        exact hstu
      have hcool1 : lookup_recent
          (if ({ s with
              attendance := s.attendance ++ [(⟨sid, today, now, cls.2, conf, true⟩ : AttRecord)],
              recently_marked := set_recent s.recently_marked sid now } : AppState).adaptive_learning
            then adaptive_learn { s with
              attendance := s.attendance ++ [(⟨sid, today, now, cls.2, conf, true⟩ : AttRecord)],
              recently_marked := set_recent s.recently_marked sid now } sid enc now
            else { s with
              attendance := s.attendance ++ [(⟨sid, today, now, cls.2, conf, true⟩ : AttRecord)],
              recently_marked := set_recent s.recently_marked sid now }).recently_marked sid
          = some now := by
        rw [learn_if_recently_marked]
        exact lookup_recent_set s.recently_marked sid now
      by_cases hc : (now' - now) % 86400 < MARK_COOLDOWN
      · refine ⟨PResult.alreadyMarkedCooldown sid (MARK_COOLDOWN - (now' - now) % 86400),
          ?_, Or.inl rfl⟩
        simp [process_attendance, hrec, hstu1, hclass, hcool1, hc]
      · have hfind1 : (find_attendance
            (if ({ s with
                attendance := s.attendance ++ [(⟨sid, today, now, cls.2, conf, true⟩ : AttRecord)],
                recently_marked := set_recent s.recently_marked sid now } : AppState).adaptive_learning
              then adaptive_learn { s with
                attendance := s.attendance ++ [(⟨sid, today, now, cls.2, conf, true⟩ : AttRecord)],
                recently_marked := set_recent s.recently_marked sid now } sid enc now
              else { s with
                attendance := s.attendance ++ [(⟨sid, today, now, cls.2, conf, true⟩ : AttRecord)],
                recently_marked := set_recent s.recently_marked sid now }).attendance
            sid today cls.2).isSome = true := by
          rw [learn_if_attendance]
          show (find_attendance (s.attendance ++ [(⟨sid, today, now, cls.2, conf, true⟩ : AttRecord)])
              sid today cls.2).isSome = true
          rw [find_attendance_append_key s.attendance sid today cls.2 now conf true, hfind]
          rfl
        refine ⟨PResult.alreadyMarkedToday sid, ?_, Or.inr rfl⟩
        simp [process_attendance, hrec, hstu1, hclass, hcool1, hc, after_cooldown, hfind1]
  · intro s sid subject conf enc now today h
    simp [mark_high_confidence, insert_attendance, h]

/-- Witness for C2: student 1 is confidently matched twice for subject
Math on day 0; one record is committed and the second attempt is reported
as already-marked. -/
theorem claim_C2_witness :
    (recognize_face (fun _ _ => (0 : ℚ)) ([0] : List ℚ) [(1, [[0]])] 2 1
        = (some 1, ((1 : ℚ) : Conf), Band.high))
    ∧ (∃ s1,
        process_attendance (⟨[⟨1, "Bob", "r1", "A", "CS"⟩], [], [], [], [], false, 10, 1, 1⟩ : AppState)
            (some ("A", "Math")) (some [0]) "i" (fun _ _ => (0 : ℚ)) [(1, [[0]])] 2 1 100 0
          = Except.ok (s1, PResult.marked 1 ((1 : ℚ) : Conf))
        ∧ (s1.attendance.filter
            (fun r => r.student_id == 1 && r.date == 0 && r.subject == "Math")).length = 1
        ∧ ∃ res,
            process_attendance s1 (some ("A", "Math")) (some [0]) "j" (fun _ _ => (0 : ℚ))
                [(1, [[0]])] 2 1 100000 0
              = Except.ok (s1, res)
            ∧ (res = PResult.alreadyMarkedCooldown 1 (MARK_COOLDOWN - (100000 - 100) % 86400)
               ∨ res = PResult.alreadyMarkedToday 1)) := by
  have hrec : recognize_face (fun _ _ => (0 : ℚ)) ([0] : List ℚ) [(1, [[0]])] 2 1
      = (some 1, ((1 : ℚ) : Conf), Band.high) := by
    rw [recognize_face_singleton, classify_coe_spec]
    norm_num
  exact ⟨hrec,
    claim_C2.1 ⟨[⟨1, "Bob", "r1", "A", "CS"⟩], [], [], [], [], false, 10, 1, 1⟩ ("A", "Math")
      [0] "i" "j" (fun _ _ => (0 : ℚ)) [(1, [[0]])] 2 1 100 100000 0 1 ((1 : ℚ) : Conf)
      ⟨1, "Bob", "r1", "A", "CS"⟩ hrec rfl rfl rfl rfl⟩

/-- C5, counterexample to the claim as stated: the classifier returns
the tentative band for student 1, who belongs to the scheduled class, yet
no PendingMatch is created because an attendance record for (1, today,
Math) already exists: the request returns already-marked and the pending
table stays empty. -/
theorem claim_C5_counterexample :
    recognize_face (fun _ _ => (2 : ℚ)) ([0] : List ℚ) [(1, [[0]])] 2 1
        = (some 1, ((-1 : ℚ) : Conf), Band.low)
    ∧ process_attendance
        ⟨[⟨1, "Bob", "r1", "A", "CS"⟩], [], [⟨1, 0, 0, "Math", ((1 : ℚ) : Conf), true⟩], [], [],
          false, 10, 7, 1⟩
        (some ("A", "Math")) (some [0]) "img" (fun _ _ => (2 : ℚ)) [(1, [[0]])] 2 1 50 0
      = Except.ok
          (⟨[⟨1, "Bob", "r1", "A", "CS"⟩], [], [⟨1, 0, 0, "Math", ((1 : ℚ) : Conf), true⟩], [], [],
            false, 10, 7, 1⟩, PResult.alreadyMarkedToday 1)
    ∧ (⟨[⟨1, "Bob", "r1", "A", "CS"⟩], [], [⟨1, 0, 0, "Math", ((1 : ℚ) : Conf), true⟩], [], [],
          false, 10, 7, 1⟩ : AppState).pendings = [] := by
  refine ⟨?_, ?_, rfl⟩
  · rw [recognize_face_singleton, classify_coe_spec]
    norm_num
  · rfl

/-- C5, amended: a tentative-band match for an identity of the scheduled
class creates a PendingMatch storing the candidate identity, captured
embedding, captured image and confidence, provided the identity is not
suppressed by the cooldown and has no attendance record yet for
(identity, today, subject). -/
theorem claim_C5 (s : AppState) (cls : String × String) (enc : List ℚ) (image : String)
    (dist : List ℚ → List ℚ → ℚ) (known : List (Nat × List (List ℚ)))
    (high_threshold low_threshold : ℚ) (now today : Nat)
    (sid : Nat) (conf : Conf) (student : Stu)
    (hrec : recognize_face dist enc known high_threshold low_threshold
      = (some sid, conf, Band.low))
    (hstu : lookup_student s sid = some student)
    (hclass : student.class_name = cls.1)
    (hcool : ∀ last, lookup_recent s.recently_marked sid = some last
      → ¬ ((now - last) % 86400 < MARK_COOLDOWN))
    (hfind : find_attendance s.attendance sid today cls.2 = none) :
    process_attendance s (some cls) (some enc) image dist known high_threshold low_threshold
        now today
      = Except.ok
          ({ s with
              pendings := s.pendings ++ [⟨s.next_pending_id, sid, enc, image, conf, cls.2⟩],
              next_pending_id := s.next_pending_id + 1 },
           PResult.pending s.next_pending_id conf) := by
  cases hl : lookup_recent s.recently_marked sid with
  | none =>
    simp [process_attendance, hrec, hstu, hclass, hl, after_cooldown, hfind, create_pending]
  | some last =>
    have hc := hcool last hl
    simp [process_attendance, hrec, hstu, hclass, hl, hc, after_cooldown, hfind, create_pending]

/-- Witness for C5: a tentative match at distance 2 creates pending
record 7 with the captured data. -/
theorem claim_C5_witness :
    recognize_face (fun _ _ => (2 : ℚ)) ([0] : List ℚ) [(1, [[0]])] 2 1
        = (some 1, ((-1 : ℚ) : Conf), Band.low)
    ∧ process_attendance
        (⟨[⟨1, "Bob", "r1", "A", "CS"⟩], [], [], [], [], false, 10, 7, 1⟩ : AppState)
        (some ("A", "Math")) (some [0]) "img" (fun _ _ => (2 : ℚ)) [(1, [[0]])] 2 1 50 0
      = Except.ok
          (⟨[⟨1, "Bob", "r1", "A", "CS"⟩], [], [],
              [⟨7, 1, [0], "img", ((-1 : ℚ) : Conf), "Math"⟩], [], false, 10, 8, 1⟩,
           PResult.pending 7 ((-1 : ℚ) : Conf)) := by
  have hrec : recognize_face (fun _ _ => (2 : ℚ)) ([0] : List ℚ) [(1, [[0]])] 2 1
      = (some 1, ((-1 : ℚ) : Conf), Band.low) := by
    rw [recognize_face_singleton, classify_coe_spec]
    norm_num
  exact ⟨hrec,
    claim_C5 ⟨[⟨1, "Bob", "r1", "A", "CS"⟩], [], [], [], [], false, 10, 7, 1⟩ ("A", "Math")
      [0] "img" (fun _ _ => (2 : ℚ)) [(1, [[0]])] 2 1 50 0 1 ((-1 : ℚ) : Conf)
      ⟨1, "Bob", "r1", "A", "CS"⟩ hrec rfl rfl (fun last h => Option.noConfusion h) rfl⟩

lemma pid_not_mem_filter (l : List PendRecord) (pid : Nat) :
    pid ∉ (l.filter (fun p => p.id ≠ pid)).map PendRecord.id := by
  intro h
  obtain ⟨p, hp, hid⟩ := List.mem_map.mp h
  have hpf := List.of_mem_filter hp
  simp only [decide_eq_true_eq] at hpf
  exact hpf hid

/-- C6, amended: resolving a PendingMatch by confirm inserts an
AttendanceRecord for the (possibly corrected) identity carrying the
original captured confidence only when none exists for that
(identity, date, subject), and feeds the embedding to the Adaptive
Learner when the adaptive-learning flag is enabled (not otherwise);
reject changes neither attendance nor encodings; in every resolved case
the PendingMatch is deleted. -/
theorem claim_C6 (s : AppState) (pid : Nat) (p : PendRecord) (correct : Option Nat)
    (now today : Nat)
    (hfind : s.pendings.find? (fun q => q.id == pid) = some p) :
    (find_attendance s.attendance (py_or_sid correct p.student_id) today p.subject = none →
      ∃ s', confirm_attendance s pid true correct now today = Except.ok (s', true)
        ∧ s'.attendance = s.attendance
            ++ [⟨py_or_sid correct p.student_id, today, now, p.subject, p.confidence, true⟩]
        ∧ (s.adaptive_learning = true →
            s'.face_encs = (adaptive_learn
              { s with attendance := s.attendance
                  ++ [⟨py_or_sid correct p.student_id, today, now, p.subject, p.confidence, true⟩] }
              (py_or_sid correct p.student_id) p.face_encoding now).face_encs)
        ∧ (s.adaptive_learning = false → s'.face_encs = s.face_encs)
        ∧ pid ∉ s'.pendings.map PendRecord.id)
    ∧ ((find_attendance s.attendance (py_or_sid correct p.student_id) today p.subject).isSome
        = true →
      ∃ s', confirm_attendance s pid true correct now today = Except.ok (s', true)
        ∧ s'.attendance = s.attendance ∧ s'.face_encs = s.face_encs
        ∧ pid ∉ s'.pendings.map PendRecord.id)
    ∧ (∃ s', confirm_attendance s pid false correct now today = Except.ok (s', true)
        ∧ s'.attendance = s.attendance ∧ s'.face_encs = s.face_encs
        ∧ pid ∉ s'.pendings.map PendRecord.id) := by
  refine ⟨?_, ?_, ?_⟩
  · intro hnone
    by_cases hb : s.adaptive_learning
    · have run : confirm_attendance s pid true correct now today
          = Except.ok
              ({ adaptive_learn
                  { s with attendance := s.attendance
                      ++ [⟨py_or_sid correct p.student_id, today, now, p.subject, p.confidence, true⟩] }
                  (py_or_sid correct p.student_id) p.face_encoding now with
                  pendings := ((adaptive_learn
                    { s with attendance := s.attendance
                        ++ [⟨py_or_sid correct p.student_id, today, now, p.subject, p.confidence, true⟩] }
                    (py_or_sid correct p.student_id) p.face_encoding now).pendings.filter
                      (fun q => q.id ≠ pid)) }, true) := by
        simp [confirm_attendance, hfind, hnone, hb]
      exact ⟨_, run, rfl, fun _ => rfl,
        fun hoff => absurd hb (by simp [hoff]),
        pid_not_mem_filter _ pid⟩
    · have hb' : s.adaptive_learning = false := by
        simpa using hb
      have run : confirm_attendance s pid true correct now today
          = Except.ok
              ({ s with
                  attendance := s.attendance
                    ++ [⟨py_or_sid correct p.student_id, today, now, p.subject, p.confidence, true⟩],
                  pendings := s.pendings.filter (fun q => q.id ≠ pid) }, true) := by
        simp [confirm_attendance, hfind, hnone, hb]
      exact ⟨_, run, rfl, fun hon => absurd hon (by simp [hb']),
        fun _ => rfl, pid_not_mem_filter _ pid⟩
  · intro hsome
    have run : confirm_attendance s pid true correct now today
        = Except.ok ({ s with pendings := s.pendings.filter (fun q => q.id ≠ pid) }, true) := by
      simp [confirm_attendance, hfind, hsome]
    exact ⟨_, run, rfl, rfl, pid_not_mem_filter _ pid⟩
  · have run : confirm_attendance s pid false correct now today
        = Except.ok ({ s with pendings := s.pendings.filter (fun q => q.id ≠ pid) }, true) := by
      simp [confirm_attendance, hfind]
    exact ⟨_, run, rfl, rfl, pid_not_mem_filter _ pid⟩

/-- C6, counterexample to the claim as stated: with adaptive learning
disabled, confirming pending record 5 inserts the attendance row but does
not feed the embedding to the Adaptive Learner: the encoding store stays
empty. -/
theorem claim_C6_counterexample :
    confirm_attendance
        (⟨[], [], [], [⟨5, 1, [0], "img", ((2 : ℚ) : Conf), "Math"⟩], [], false, 10, 6, 1⟩ : AppState)
        5 true none 100 0
      = Except.ok
          ((⟨[], [], [⟨1, 0, 100, "Math", ((2 : ℚ) : Conf), true⟩], [], [], false, 10, 6, 1⟩ : AppState),
           true)
    ∧ ((⟨[], [], [⟨1, 0, 100, "Math", ((2 : ℚ) : Conf), true⟩], [], [], false, 10, 6, 1⟩ : AppState).face_encs
        = []) :=
  ⟨rfl, rfl⟩

/-- Witness for C6: confirming pending record 5 with adaptive learning
enabled inserts exactly the captured attendance row and deletes the
pending record. -/
theorem claim_C6_witness :
    ((⟨[], [], [], [⟨5, 1, [0], "img", ((2 : ℚ) : Conf), "Math"⟩], [], true, 10, 6, 1⟩ : AppState).pendings.find?
        (fun q => q.id == 5) = some ⟨5, 1, [0], "img", ((2 : ℚ) : Conf), "Math"⟩)
    ∧ (∃ s', confirm_attendance
          (⟨[], [], [], [⟨5, 1, [0], "img", ((2 : ℚ) : Conf), "Math"⟩], [], true, 10, 6, 1⟩ : AppState)
          5 true none 100 0 = Except.ok (s', true)
        ∧ s'.attendance = [⟨1, 0, 100, "Math", ((2 : ℚ) : Conf), true⟩]
        ∧ 5 ∉ s'.pendings.map PendRecord.id) := by
  refine ⟨rfl, ?_⟩
  obtain ⟨s', h1, h2, _, _, h5⟩ :=
    (claim_C6 ⟨[], [], [], [⟨5, 1, [0], "img", ((2 : ℚ) : Conf), "Math"⟩], [], true, 10, 6, 1⟩
      5 ⟨5, 1, [0], "img", ((2 : ℚ) : Conf), "Math"⟩ none 100 0 rfl).1 rfl
  exact ⟨s', h1, by simpa [py_or_sid] using h2, h5⟩

lemma register_fold_none (extract : String → Option (List ℚ)) (new_sid now : Nat) :
    ∀ (images : List String) (acc : AppState × Nat), (∀ img ∈ images, extract img = none) →
      images.foldl
        (fun (acc : AppState × Nat) img =>
          match extract img with
          | some enc => (add_face_encoding acc.1 new_sid enc Source.registration now, acc.2 + 1)
          | none => acc) acc = acc := by
  intro images
  induction images with
  | nil => intro acc h; rfl
  | cons img rest ih =>
    intro acc h
    have hi : extract img = none := h img (by simp)
    rw [List.foldl_cons, hi]
    exact ih acc (fun x hx => h x (by simp [hx]))

/-- C8: an enrollment in which no submitted image yields an embedding
fails and rolls the created Identity back: the store is left exactly as
before the request, so no identity without embeddings is retained. -/
theorem claim_C8 (s : AppState) (extract : String → Option (List ℚ))
    (name roll_number class_name department : String) (images : List String)
    (new_sid now : Nat)
    (hroll : s.students.find? (fun st => st.roll_number == roll_number) = none)
    (hext : ∀ img ∈ images, extract img = none)
    (hfresh : ∀ st ∈ s.students, st.id ≠ new_sid)
    (hencs : ∀ e ∈ s.face_encs, e.student_id ≠ new_sid)
    (hatt : ∀ a ∈ s.attendance, a.student_id ≠ new_sid) :
    register_student s extract name roll_number class_name department images new_sid now
      = (s, false) := by
  have hfold := register_fold_none extract new_sid now images
      ({ s with students := s.students
          ++ [⟨new_sid, name, roll_number, class_name, department⟩] }, 0) hext
  have hstu : s.students.filter (fun st => !decide (st.id = new_sid)) = s.students :=
    List.filter_eq_self.mpr (fun a ha => by simpa using hfresh a ha)
  have hf2 : s.face_encs.filter (fun e => !decide (e.student_id = new_sid)) = s.face_encs :=
    List.filter_eq_self.mpr (fun a ha => by simpa using hencs a ha)
  have hf3 : s.attendance.filter (fun a => !decide (a.student_id = new_sid)) = s.attendance :=
    List.filter_eq_self.mpr (fun a ha => by simpa using hatt a ha)
  simp [register_student, hroll, hfold, hstu, hf2, hf3]

/-- Witness for C8 on a one-image request whose extraction fails. -/
theorem claim_C8_witness :
    (∀ img ∈ (["x"] : List String), (fun _ => (none : Option (List ℚ))) img = none)
    ∧ register_student (⟨[⟨1, "Ann", "r0", "A", "CS"⟩], [], [], [], [], true, 10, 1, 1⟩ : AppState)
        (fun _ => none) "Bea" "r9" "A" "CS" ["x"] 2 5
      = ((⟨[⟨1, "Ann", "r0", "A", "CS"⟩], [], [], [], [], true, 10, 1, 1⟩ : AppState), false) :=
  ⟨fun _ _ => rfl,
    claim_C8 ⟨[⟨1, "Ann", "r0", "A", "CS"⟩], [], [], [], [], true, 10, 1, 1⟩ (fun _ => none)
      "Bea" "r9" "A" "CS" ["x"] 2 5 rfl (fun _ _ => rfl) (by decide) (by decide) (by decide)⟩

/-- Every stored encoding has one of the two provenance tags, so the
adaptive and registration sublists partition the rows. -/
lemma source_split (l : List FaceEnc) :
    (l.filter (fun e => e.source == Source.adaptive)).length
      + (l.filter (fun e => e.source == Source.registration)).length = l.length := by
  induction l with
  | nil => rfl
  | cons e t ih =>
    cases he : e.source <;> simp [List.filter_cons, he] <;> omega

/-- C3: on the query result sorted newest first, when the row count
exceeds the bound the eviction removes only adaptive-provenance rows (no
enrollment row is ever evicted), removes min(excess, adaptive-count) of
them, chooses the oldest adaptive rows, and afterwards the per-identity
count equals the bound when the enrollment count alone fits within it;
otherwise all adaptive rows go and the enrollment count, exceeding the
bound, remains. -/
theorem claim_C3 (encs : List FaceEnc) (max_encodings : Nat)
    (hsorted : encs.Pairwise (fun a b => b.created_at ≤ a.created_at))
    (hover : max_encodings < encs.length) :
    (∀ e ∈ cleanup_deleted encs max_encodings, e.source = Source.adaptive)
    ∧ (cleanup_deleted encs max_encodings).length
        = min (encs.length - max_encodings)
            (encs.filter (fun e => e.source == Source.adaptive)).length
    ∧ (∀ e ∈ cleanup_deleted encs max_encodings,
        ∀ k ∈ encs.filter (fun e => e.source == Source.adaptive),
          k ∉ cleanup_deleted encs max_encodings → e.created_at ≤ k.created_at)
    ∧ ((encs.filter (fun e => e.source == Source.registration)).length ≤ max_encodings →
        encs.length - (cleanup_deleted encs max_encodings).length = max_encodings)
    ∧ (max_encodings < (encs.filter (fun e => e.source == Source.registration)).length →
        cleanup_deleted encs max_encodings = encs.filter (fun e => e.source == Source.adaptive)
        ∧ encs.length - (cleanup_deleted encs max_encodings).length
            = (encs.filter (fun e => e.source == Source.registration)).length) := by
  have hdel : cleanup_deleted encs max_encodings
      = (encs.filter (fun e => e.source == Source.adaptive)).drop
          ((encs.filter (fun e => e.source == Source.adaptive)).length
            - (encs.length - max_encodings)) := by
    simp [cleanup_deleted, hover]
  have hsplit := source_split encs
  have hlen : (cleanup_deleted encs max_encodings).length
      = (encs.filter (fun e => e.source == Source.adaptive)).length
        - ((encs.filter (fun e => e.source == Source.adaptive)).length
            - (encs.length - max_encodings)) := by
    rw [hdel, List.length_drop]
  refine ⟨?_, ?_, ?_, ?_, ?_⟩
  · intro e he
    rw [hdel] at he
    have := List.of_mem_filter (List.mem_of_mem_drop he)
    exact eq_of_beq this
  · omega
  · intro e he k hk hnk
    rw [hdel] at he hnk
    have had : (encs.filter (fun e => e.source == Source.adaptive)).Pairwise
        (fun a b => b.created_at ≤ a.created_at) :=
      List.Pairwise.sublist (List.filter_sublist encs) hsorted
    set ad := encs.filter (fun e => e.source == Source.adaptive) with had'
    set kk := ad.length - (encs.length - max_encodings) with hkk
    have hsplit2 := List.take_append_drop kk ad
    have hpw : (ad.take kk ++ ad.drop kk).Pairwise (fun a b => b.created_at ≤ a.created_at) := by
      rw [hsplit2]; exact had
    have h3 := (List.pairwise_append.mp hpw).2.2
    have hk2 : k ∈ ad.take kk ++ ad.drop kk := by rw [hsplit2]; exact hk
    rcases List.mem_append.mp hk2 with hkt | hkd
    · exact h3 k hkt e he
    · exact absurd hkd hnk
  · intro hreg
    omega
  · intro hreg
    constructor
    · rw [hdel]
      have hz : (encs.filter (fun e => e.source == Source.adaptive)).length
          - (encs.length - max_encodings) = 0 := by omega
      rw [hz, List.drop_zero]
    · omega

/-- Witness for C3: five rows with bound 3 evict exactly the two oldest
adaptive rows. -/
theorem claim_C3_witness :
    ([⟨1, 1, [], 10, Source.registration⟩, ⟨2, 1, [], 8, Source.adaptive⟩,
      ⟨3, 1, [], 6, Source.adaptive⟩, ⟨4, 1, [], 4, Source.adaptive⟩,
      ⟨5, 1, [], 2, Source.registration⟩] : List FaceEnc).Pairwise
        (fun a b => b.created_at ≤ a.created_at)
    ∧ 3 < ([⟨1, 1, [], 10, Source.registration⟩, ⟨2, 1, [], 8, Source.adaptive⟩,
        ⟨3, 1, [], 6, Source.adaptive⟩, ⟨4, 1, [], 4, Source.adaptive⟩,
        ⟨5, 1, [], 2, Source.registration⟩] : List FaceEnc).length
    ∧ (cleanup_deleted [⟨1, 1, [], 10, Source.registration⟩, ⟨2, 1, [], 8, Source.adaptive⟩,
        ⟨3, 1, [], 6, Source.adaptive⟩, ⟨4, 1, [], 4, Source.adaptive⟩,
        ⟨5, 1, [], 2, Source.registration⟩] 3).length
      = min (([⟨1, 1, [], 10, Source.registration⟩, ⟨2, 1, [], 8, Source.adaptive⟩,
          ⟨3, 1, [], 6, Source.adaptive⟩, ⟨4, 1, [], 4, Source.adaptive⟩,
          ⟨5, 1, [], 2, Source.registration⟩] : List FaceEnc).length - 3)
          (([⟨1, 1, [], 10, Source.registration⟩, ⟨2, 1, [], 8, Source.adaptive⟩,
            ⟨3, 1, [], 6, Source.adaptive⟩, ⟨4, 1, [], 4, Source.adaptive⟩,
            ⟨5, 1, [], 2, Source.registration⟩] : List FaceEnc).filter
              (fun e => e.source == Source.adaptive)).length :=
  ⟨by decide, by decide,
    (claim_C3 [⟨1, 1, [], 10, Source.registration⟩, ⟨2, 1, [], 8, Source.adaptive⟩,
        ⟨3, 1, [], 6, Source.adaptive⟩, ⟨4, 1, [], 4, Source.adaptive⟩,
        ⟨5, 1, [], 2, Source.registration⟩] 3 (by decide) (by decide)).2.1⟩

/-- The nested fold of find_nearest equals a single fold over the
flattened (student, encoding) pairs. -/
lemma find_nearest_eq_pairLoop {α : Type} (dist : α → α → ℚ) (q : α) :
    ∀ (known : List (Nat × List α)) (i : Option Nat × Dist),
      known.foldl
        (fun best p =>
          p.2.foldl
            (fun b e =>
              if ((dist e q : ℚ) : Dist) < b.2 then (some p.1, ((dist e q : ℚ) : Dist)) else b)
            best) i
      = pairLoop dist q i (flatPairs known) := by
  intro known
  induction known with
  | nil => intro i; rfl
  | cons p ks ih =>
    intro i
    rw [List.foldl_cons]
    have hflat : flatPairs (p :: ks) = (p.2.map (fun e => (p.1, e))) ++ flatPairs ks := by
      simp [flatPairs]
    rw [hflat, pairLoop, List.foldl_append]
    have hinner : p.2.foldl
        (fun b e =>
          if ((dist e q : ℚ) : Dist) < b.2 then (some p.1, ((dist e q : ℚ) : Dist)) else b) i
        = pairLoop dist q i (p.2.map (fun e => (p.1, e))) := by
      rw [pairLoop, List.foldl_map]
      rfl
    rw [hinner]
    exact ih (pairLoop dist q i (p.2.map (fun e => (p.1, e))))

/-- Characterization of the nearest-neighbour fold: the final distance is
the minimum of the accumulator distance and all pair distances, and when
some pair beats the accumulator the winner is the first pair attaining
the minimum. -/
lemma pairLoop_char {α : Type} (dist : α → α → ℚ) (q : α) :
    ∀ (pairs : List (Nat × α)) (i : Option Nat × Dist),
      ((pairLoop dist q i pairs).2 = min i.2 (mind dist q pairs))
      ∧ (mind dist q pairs < i.2 →
          ∃ pe, pairs.find? (fun x => dd dist q x == mind dist q pairs) = some pe
            ∧ pairLoop dist q i pairs = (some pe.1, dd dist q pe)
            ∧ dd dist q pe = mind dist q pairs)
      ∧ (¬ mind dist q pairs < i.2 → pairLoop dist q i pairs = i) := by
  intro pairs
  induction pairs with
  | nil =>
    intro i
    refine ⟨(min_eq_left le_top).symm, ?_, fun _ => rfl⟩
    intro h
    exact absurd h (by simp [mind])
  | cons pe rest ih =>
    intro i
    have hmc : mind dist q (pe :: rest) = min (dd dist q pe) (mind dist q rest) := rfl
    by_cases hlt : dd dist q pe < i.2
    · have hstep : pairLoop dist q i (pe :: rest)
          = pairLoop dist q (some pe.1, dd dist q pe) rest := by
        simp [pairLoop, List.foldl_cons, hlt]
      obtain ⟨ih1, ih2, ih3⟩ := ih (some pe.1, dd dist q pe)
      by_cases hmr : mind dist q rest < dd dist q pe
      · have hmin : mind dist q (pe :: rest) = mind dist q rest := by
          rw [hmc, min_eq_right (le_of_lt hmr)]
        obtain ⟨w, hw1, hw2, hw3⟩ := ih2 (by simpa using hmr)
        refine ⟨?_, ?_, ?_⟩
        · rw [hstep, ih1, hmc]
          rw [min_eq_right (le_of_lt (lt_of_le_of_lt (min_le_left _ _) hlt))]
        · intro _
          refine ⟨w, ?_, by rw [hstep, hw2], by rw [hw3, hmin]⟩
          rw [List.find?_cons_of_neg]
          · rw [hmin]; exact hw1
          · simp only [beq_iff_eq, hmin]
            exact fun hc => absurd hc (ne_of_gt hmr)
        · intro h
          have hcon : mind dist q (pe :: rest) < i.2 := by
            rw [hmc]
            exact lt_of_le_of_lt (min_le_left _ _) hlt
          exact absurd hcon h
      · have hge2 : dd dist q pe ≤ mind dist q rest := not_lt.mp hmr
        have hmin : mind dist q (pe :: rest) = dd dist q pe := by
          rw [hmc, min_eq_left hge2]
        have hloop := ih3 hmr
        refine ⟨?_, ?_, ?_⟩
        · rw [hstep, hloop, hmc, min_eq_left hge2]
          exact (min_eq_right (le_of_lt hlt)).symm
        · intro _
          refine ⟨pe, ?_, ?_, hmin.symm ▸ rfl⟩
          · exact List.find?_cons_of_pos _ (by simp [hmin])
          · rw [hstep, hloop]
        · intro h
          exact absurd (hmin ▸ hlt) h
    · have hstep : pairLoop dist q i (pe :: rest) = pairLoop dist q i rest := by
        simp [pairLoop, List.foldl_cons, hlt]
      have hge : i.2 ≤ dd dist q pe := not_lt.mp hlt
      obtain ⟨ih1, ih2, ih3⟩ := ih i
      refine ⟨?_, ?_, ?_⟩
      · rw [hstep, ih1, hmc, ← min_assoc, min_eq_left hge]
      · intro h
        rw [hmc] at h
        have hm2 : mind dist q rest < i.2 := by
          rcases min_lt_iff.mp h with h1 | h2
          · exact absurd h1 (not_lt.mpr hge)
          · exact h2
        have hmin : mind dist q (pe :: rest) = mind dist q rest := by
          rw [hmc, min_eq_right (le_of_lt (lt_of_lt_of_le hm2 hge))]
        obtain ⟨w, hw1, hw2, hw3⟩ := ih2 hm2
        refine ⟨w, ?_, by rw [hstep, hw2], by rw [hw3, hmin]⟩
        rw [List.find?_cons_of_neg]
        · rw [hmin]; exact hw1
        · simp only [beq_iff_eq, hmin]
          intro hc
          exact absurd (hc ▸ hm2) (not_lt.mpr hge)
      · intro h
        rw [hmc] at h
        have : ¬ mind dist q rest < i.2 := fun hmri => h (min_lt_iff.mpr (Or.inr hmri))
        rw [hstep]
        exact ih3 this

/-- C9: the matcher is a pure function of the query and known set, so
repeated calls with unchanged inputs return identical (identity,
distance) pairs; and its output is exactly the first pair (in enumeration
order of the flattened known set) attaining the minimal distance, so on
ties the first encountered minimum wins. -/
theorem claim_C9 {α : Type} (dist : α → α → ℚ) (q : α) (known : List (Nat × List α)) :
    find_nearest dist q known = find_nearest dist q known
    ∧ find_nearest dist q known
        = (((flatPairs known).find?
              (fun pe => dd dist q pe == mind dist q (flatPairs known))).map Prod.fst,
           mind dist q (flatPairs known)) := by
  refine ⟨rfl, ?_⟩
  have heq : find_nearest dist q known = pairLoop dist q (none, ⊤) (flatPairs known) :=
    find_nearest_eq_pairLoop dist q known (none, (⊤ : Dist))
  obtain ⟨h1, h2, h3⟩ := pairLoop_char dist q (flatPairs known) (none, (⊤ : Dist))
  by_cases hm : mind dist q (flatPairs known) < (⊤ : Dist)
  · obtain ⟨w, hw1, hw2, hw3⟩ := h2 hm
    rw [heq, hw2, hw1]
    simp [hw3]
  · have hm' : mind dist q (flatPairs known) = (⊤ : Dist) :=
      (le_top.lt_or_eq).resolve_left hm
    have hfind : (flatPairs known).find?
        (fun pe => dd dist q pe == mind dist q (flatPairs known)) = none := by
      rw [List.find?_eq_none]
      intro x hx
      rw [hm']
      simp [dd]
    rw [heq, h3 hm, hfind, hm']
    rfl

lemma mem_insert_desc (b e : FaceEnc) (l : List FaceEnc) :
    b ∈ insert_desc e l ↔ b = e ∨ b ∈ l := by
  induction l with
  | nil => simp [insert_desc]
  | cons x xs ih =>
    rw [insert_desc]
    by_cases hc : x.created_at ≤ e.created_at
    · rw [if_pos hc]
      simp
    · rw [if_neg hc]
      simp [ih]
      tauto

lemma insert_desc_sorted (e : FaceEnc) (l : List FaceEnc)
    (h : l.Pairwise (fun a b => b.created_at ≤ a.created_at)) :
    (insert_desc e l).Pairwise (fun a b => b.created_at ≤ a.created_at) := by
  induction l with
  | nil => simp [insert_desc]
  | cons x xs ih =>
    rw [insert_desc]
    have hx := List.pairwise_cons.mp h
    by_cases hc : x.created_at ≤ e.created_at
    · rw [if_pos hc]
      refine List.pairwise_cons.mpr ⟨?_, h⟩
      intro b hb
      rcases List.mem_cons.mp hb with hb1 | hb2
      · exact hb1 ▸ hc
      · exact le_trans (hx.1 b hb2) hc
    · rw [if_neg hc]
      refine List.pairwise_cons.mpr ⟨?_, ih hx.2⟩
      intro b hb
      rcases (mem_insert_desc b e xs).mp hb with hb1 | hb2
      · exact hb1 ▸ le_of_lt (not_le.mp hc)
      · exact hx.1 b hb2

/-- The query result in cleanup_old_encodings is always sorted newest
first, so the sortedness hypothesis of the eviction theorem holds for
every store state. -/
lemma cleanup_query_sorted (s : AppState) (sid : Nat) :
    (sort_desc (s.face_encs.filter (fun e => e.student_id == sid))).Pairwise
      (fun a b => b.created_at ≤ a.created_at) := by
  rw [sort_desc]
  induction (s.face_encs.filter (fun e => e.student_id == sid)) with
  | nil => simp
  | cons x xs ih =>
    rw [List.foldr_cons]
    exact insert_desc_sorted x _ ih

end SmartAttendance
